import Mathlib

/-!
Shallow embedding of the data pipeline of `PINNICLE/modeldata/data.py`
(`DataBase` / `Data` / `ISSMmdData`) and proofs of its specification.

Python dictionaries are modelled as insertion-ordered association lists
over `String` keys; `numpy` arrays are modelled as Lean lists; array
values range over an arbitrary linear ordered field `V` (instantiated
with `ℚ` for concrete evaluations and with `ℝ` where `np.sqrt` matters).
Fallible operations (dictionary `KeyError`, file loading) return
`Option` / `Except`.
-/

namespace PINNICLE

/-- Dictionary assignment `d[k] = v` on an insertion-ordered association
list: replaces the value at an existing key in place, or appends a new
binding at the end (CPython dict semantics). -/
def setKey {α : Type} : List (String × α) → String → α → List (String × α)
  | [], k, v => [(k, v)]
  | p :: rest, k, v => if p.1 = k then (k, v) :: rest else p :: setKey rest k v

/-- Key list of an association list, in insertion order. -/
def keys {α : Type} (l : List (String × α)) : List String := l.map Prod.fst

/-- Modelled from the spec: the per-source parameter object (class
`SingleDataParameter` of the `parameter` module, whose source file is not
part of this repository snapshot) carries the source-type tag, the data
file path, and the per-field sample-size request `data_size` mapping each
field name to a positive count or `None`. -/
structure SingleDataParameter where
  source : String
  data_path : String
  data_size : List (String × Option Nat)

/-- Content of the ISSM `.mat` model file: the nested fields of `md`
that `ISSMmdData.load_data` accesses (`mesh.x`, `mesh.y`,
`inversion.vx_obs`, `inversion.vy_obs`, `geometry.surface`,
`geometry.thickness`, `friction.C`, `materials.rheology_B`,
`mask.ice_levelset`, `mesh.vertexonboundary`). -/
structure MatMd (V : Type) where
  mesh_x : List V
  mesh_y : List V
  vx_obs : List V
  vy_obs : List V
  surface : List V
  thickness : List V
  friction_C : List V
  rheology_B : List V
  ice_levelset : List V
  vertexonboundary : List V

/-- State of one `ISSMmdData` loader.  `X_dict` holds the two coordinate
arrays `x` and `y`; `data_dict` the physical fields; `mask_dict` the
masks.  The Python initial value `None` of `X` and `sol` is modelled as
the empty dictionary (no claim distinguishes the two). -/
structure ISSMmdData (V : Type) where
  parameters : SingleDataParameter
  X_dict_x : List V := []
  X_dict_y : List V := []
  data_dict : List (String × List V) := []
  mask_dict : List (String × List V) := []
  X : List (String × List (V × V)) := []
  sol : List (String × List V) := []

/-- State of the aggregate `Data` manager: the owned loaders keyed by
logical source name (in configured iteration order) and the merged
training dictionaries. -/
structure Data (V : Type) where
  data : List (String × ISSMmdData V)
  X : List (String × List (V × V)) := []
  sol : List (String × List V) := []

/-- The registry `DataBase.subclasses` built by `__init_subclass__`:
the single concrete subclass in the source registers the tag `ISSM`. -/
def DataBase.subclasses : List String := ["ISSM"]

/-- Embeds `DataBase.create`: raises `ValueError` for an unregistered
tag, otherwise constructs a fresh instance of the registered
implementation (empty dictionaries, nothing loaded). -/
def DataBase.create (V : Type) (data_type : String)
    (parameters : SingleDataParameter) : Except String (ISSMmdData V) :=
  if data_type ∉ DataBase.subclasses then
    Except.error ("Data type " ++ data_type ++ " is not defined")
  else
    Except.ok { parameters := parameters }

variable {V : Type} [LinearOrderedField V] {E : Type}

/-- Embeds `ISSMmdData.get_ice_indices`: an empty or unknown mask name
falls back to `icemask`; returns the indices where the mask value is
negative.  A missing mask key (`KeyError`) is `none`. -/
def ISSMmdData.get_ice_indices (self : ISSMmdData V)
    (mask_name : String := "") : Option (List Nat) :=
  let name := if mask_name = "" || (self.mask_dict.lookup mask_name).isNone
              then "icemask" else mask_name
  (self.mask_dict.lookup name).map fun icemask =>
    (List.range icemask.length).filter fun i => icemask.getD i 0 < 0

/-- Embeds `ISSMmdData.get_ice_coordinates`: the 2-column `(x, y)` array
at the ice indices. -/
def ISSMmdData.get_ice_coordinates (self : ISSMmdData V)
    (mask_name : String := "") : Option (List (V × V)) :=
  (self.get_ice_indices mask_name).map fun iice =>
    iice.map fun i => (self.X_dict_x.getD i 0, self.X_dict_y.getD i 0)

/-- Embeds `ISSMmdData.load_data`.  `yts` is the seconds-per-year
constant inherited from `Constants` (modelled from the spec: the
`physics` module is not in this snapshot); `sq` stands for elementwise
`np.sqrt`; `loadmat` stands for `mat73.loadmat`, which raises (`Except`)
on a missing, unreadable or field-incomplete file. -/
def ISSMmdData.load_data (yts : V) (sq : V → V)
    (loadmat : String → Except E (MatMd V)) (self : ISSMmdData V) :
    Except E (ISSMmdData V) := do
  let md ← loadmat self.parameters.data_path
  let u := md.vx_obs.map fun a => a / yts
  let v := md.vy_obs.map fun a => a / yts
  return { self with
    X_dict_x := md.mesh_x
    X_dict_y := md.mesh_y
    data_dict :=
      setKey (setKey (setKey (setKey (setKey (setKey (setKey self.data_dict
        "u" u) "v" v) "s" md.surface) "H" md.thickness) "C" md.friction_C)
        "B" md.rheology_B) "vel"
        (List.zipWith (fun a b => sq (a ^ (2 : ℕ) + b ^ (2 : ℕ))) u v)
    mask_dict := setKey (setKey self.mask_dict "icemask" md.ice_levelset)
      "DBC_mask" md.vertexonboundary }

/-- Abstraction of the shared `np.random` generator for
`np.random.choice(m, c, replace=False)`: `choice t m c` is the index
sample returned by the `t`-th call to the generator, drawing `c`
indices from population `0..m-1`. -/
def ValidChoice (choice : Nat → Nat → Nat → List Nat) : Prop :=
  ∀ t m c, c ≤ m →
    (choice t m c).length = c ∧ (choice t m c).Nodup ∧
      ∀ i ∈ choice t m c, i < m

/-- The per-field loop of `ISSMmdData.prepare_training_data` (lines
201-215): walks the keys of `data_dict`, threading the call counter of
the random generator and the dictionaries `X` and `sol` being built. -/
def prepLoop (choice : Nat → Nat → Nat → List Nat)
    (data_size : List (String × Option Nat))
    (X_temp X_bc : List (V × V)) (iice idbc : List Nat) :
    List (String × List V) → Nat →
    List (String × List (V × V)) → List (String × List V) →
    List (String × List (V × V)) × List (String × List V) × Nat
  | [], t, X, sol => (X, sol, t)
  | (k, vals) :: rest, t, X, sol =>
    match data_size.lookup k with
    | none => prepLoop choice data_size X_temp X_bc iice idbc rest t X sol
    | some (some n) =>
      let max_data_size := X_temp.length
      let sol_temp := iice.map fun i => vals.getD i 0
      let idx := choice t max_data_size (min n max_data_size)
      prepLoop choice data_size X_temp X_bc iice idbc rest (t + 1)
        (setKey X k (idx.map fun j => X_temp.getD j (0, 0)))
        (setKey sol k (idx.map fun j => sol_temp.getD j 0))
    | some none =>
      prepLoop choice data_size X_temp X_bc iice idbc rest t
        (setKey X k X_bc)
        (setKey sol k (idbc.map fun i => vals.getD i 0))

/-- Embeds `ISSMmdData.prepare_training_data`.  `t0` is the incoming
call count of the shared random generator; the result carries the final
count.  A `data_size` argument of `none` defaults to the configured
parameter.  `X` and `sol` are reinitialised to empty before the loop. -/
def ISSMmdData.prepare_training_data (self : ISSMmdData V)
    (choice : Nat → Nat → Nat → List Nat) (t0 : Nat)
    (data_size : Option (List (String × Option Nat)) := none) :
    Option (ISSMmdData V × Nat) := do
  let ds := match data_size with
            | none => self.parameters.data_size
            | some d => d
  let iice ← self.get_ice_indices
  let X_temp := iice.map fun i => (self.X_dict_x.getD i 0, self.X_dict_y.getD i 0)
  let DBC ← self.mask_dict.lookup "DBC_mask"
  let idbc := (List.range DBC.length).filter fun i => 0 < DBC.getD i 0
  let X_bc := idbc.map fun i => (self.X_dict_x.getD i 0, self.X_dict_y.getD i 0)
  let r := prepLoop choice ds X_temp X_bc iice idbc self.data_dict t0 [] []
  return ({ self with X := r.1, sol := r.2.1 }, r.2.2)

/-- The dictionary merge of `Data.prepare_training_data` (lines 88-98):
for each key of `new`, assign if absent from the aggregate, otherwise
vertically concatenate onto the existing rows. -/
def mergeDict {α : Type} (acc new : List (String × List α)) :
    List (String × List α) :=
  new.foldl (fun a p =>
    match a.lookup p.1 with
    | none => setKey a p.1 p.2
    | some old => setKey a p.1 (old ++ p.2)) acc

/-- The loader loop of `Data.prepare_training_data`: prepares each owned
loader in configured order (threading the random generator) and merges
its `X` and `sol` into the aggregate dictionaries. -/
def dataPrepLoop (choice : Nat → Nat → Nat → List Nat) :
    List (String × ISSMmdData V) → Nat →
    List (String × List (V × V)) → List (String × List V) →
    Option (List (String × ISSMmdData V) × List (String × List (V × V)) ×
      List (String × List V) × Nat)
  | [], t, X, sol => some ([], X, sol, t)
  | (key, d) :: rest, t, X, sol => do
    let r ← d.prepare_training_data choice t
    let r2 ← dataPrepLoop choice rest r.2 (mergeDict X r.1.X)
      (mergeDict sol r.1.sol)
    return ((key, r.1) :: r2.1, r2.2.1, r2.2.2.1, r2.2.2.2)

/-- Embeds `Data.prepare_training_data`: note that the aggregate `X` and
`sol` are NOT reinitialised — the loop merges into their current
content. -/
def Data.prepare_training_data (self : Data V)
    (choice : Nat → Nat → Nat → List Nat) (t0 : Nat) :
    Option (Data V × Nat) :=
  (dataPrepLoop choice self.data t0 self.X self.sol).map fun r =>
    ({ self with data := r.1, X := r.2.1, sol := r.2.2.1 }, r.2.2.2)

/-- The loader loop of `Data.load_data`: loads each owned loader in
configured order; the first raised error stops the loop, leaving the
failing and the remaining loaders in their previous state. -/
def dataLoadLoop (yts : V) (sq : V → V)
    (loadmat : String → Except E (MatMd V)) :
    List (String × ISSMmdData V) →
    List (String × ISSMmdData V) × Option E
  | [] => ([], none)
  | (key, d) :: rest =>
    match d.load_data yts sq loadmat with
    | Except.error e => ((key, d) :: rest, some e)
    | Except.ok d' =>
      let r := dataLoadLoop yts sq loadmat rest
      ((key, d') :: r.1, r.2)

/-- Embeds `Data.load_data`: sequential fan-out over the owned loaders,
returning the updated manager state together with the first error, if
any (the error propagates unchanged to the caller). -/
def Data.load_data (self : Data V) (yts : V) (sq : V → V)
    (loadmat : String → Except E (MatMd V)) : Data V × Option E :=
  let r := dataLoadLoop yts sq loadmat self.data
  ({ self with data := r.1 }, r.2)

/-- The vertical-concatenation merge of `Data.prepare_training_data`
viewed at a single key: successive per-source contributions (`none` when
the source did not produce the key) are appended onto the current
aggregate entry. -/
def vstackFold {α : Type} (init : Option (List α))
    (cs : List (Option (List α))) : Option (List α) :=
  cs.foldl (fun a c =>
    match c with
    | none => a
    | some arr => some (a.getD [] ++ arr)) init

/-- The state of a loader after a successful `load_data`, or the
unchanged state when loading raised. -/
def loadedOf (yts : V) (sq : V → V)
    (loadmat : String → Except E (MatMd V)) (d : ISSMmdData V) :
    ISSMmdData V :=
  match d.load_data yts sq loadmat with
  | Except.ok d' => d'
  | Except.error _ => d

/-! Concrete instances used to evaluate the definitions on closed inputs. -/

/-- A deterministic generator satisfying `ValidChoice`: the `c` smallest
indices. -/
def rangeChoice : Nat → Nat → Nat → List Nat := fun _ _ c => List.range c

/-- A small parameter set: two requested fields, one with a count and one
in boundary-condition mode. -/
def demoParams : SingleDataParameter :=
  ⟨"ISSM", "f.mat", [("u", some 2), ("C", none)]⟩

/-- A small loaded loader state over `ℚ`: three vertices, two of them in
the ice region, two on the boundary. -/
def demoLoader : ISSMmdData ℚ where
  parameters := demoParams
  X_dict_x := [10, 20, 30]
  X_dict_y := [1, 2, 3]
  data_dict := [("u", [5, 6, 7]), ("C", [8, 9, 11]), ("H", [1, 1, 1])]
  mask_dict := [("icemask", [-1, 1, -1]), ("DBC_mask", [0, 1, 1])]

/-- An aggregate manager owning one copy of `demoLoader`. -/
def demoData : Data ℚ where
  data := [("ISSM", demoLoader)]

/-- A second small loader sharing the field `u` with `demoLoader` but on
a different mesh (one ice vertex). -/
def demoLoader2 : ISSMmdData ℚ where
  parameters := ⟨"ISSM", "g.mat", [("u", some 5)]⟩
  X_dict_x := [100, 200]
  X_dict_y := [7, 8]
  data_dict := [("u", [50, 60])]
  mask_dict := [("icemask", [1, -1]), ("DBC_mask", [1, 0])]

/-- An aggregate manager owning two loaders that both produce `u`. -/
def demoData2 : Data ℚ where
  data := [("a", demoLoader), ("b", demoLoader2)]

/-- A small model file content over `ℚ` for load tests. -/
def demoMat : MatMd ℚ where
  mesh_x := [10, 20]
  mesh_y := [1, 2]
  vx_obs := [3, 6]
  vy_obs := [4, 8]
  surface := [2, 2]
  thickness := [5, 5]
  friction_C := [9, 9]
  rheology_B := [8, 8]
  ice_levelset := [-1, 1]
  vertexonboundary := [1, 0]

/-- The value of `Data.prepare_training_data demoData2 rangeChoice 0`,
written out. -/
def demoData2Prepared : Data ℚ × Nat :=
  ({ demoData2 with
      data := [("a", { demoLoader with
          X := [("u", [(10, 1), (30, 3)]), ("C", [(20, 2), (30, 3)])],
          sol := [("u", [5, 7]), ("C", [9, 11])] }),
        ("b", { demoLoader2 with
          X := [("u", [(200, 8)])], sol := [("u", [60])] })],
      X := [("u", [(10, 1), (30, 3), (200, 8)]), ("C", [(20, 2), (30, 3)])],
      sol := [("u", [5, 7, 60]), ("C", [9, 11])] }, 2)

/-- The value of
`demoLoader.prepare_training_data rangeChoice 0 (some [(u, 2), (C, none)])`,
written out. -/
def demoLoaderPrepared : ISSMmdData ℚ × Nat :=
  ({ demoLoader with
      X := [("u", [(10, 1), (30, 3)]), ("C", [(20, 2), (30, 3)])],
      sol := [("u", [5, 7]), ("C", [9, 11])] }, 1)

/-- The value of `Data.prepare_training_data demoData rangeChoice 0`,
written out. -/
def demoDataPrepared : Data ℚ × Nat :=
  ({ demoData with
      data := [("ISSM", demoLoaderPrepared.1)],
      X := [("u", [(10, 1), (30, 3)]), ("C", [(20, 2), (30, 3)])],
      sol := [("u", [5, 7]), ("C", [9, 11])] }, 1)

/-- A two-source aggregate for load tests: the first source's file
exists, the second's does not. -/
def demoDataLoad : Data ℚ where
  data := [("a", demoLoader), ("b", demoLoader2)]

/-- A file system with a single readable model file `f.mat`; any other
path raises. -/
def demoLoadmat : String → Except String (MatMd ℚ) :=
  fun path => if path = "f.mat" then Except.ok demoMat else Except.error "boom"

/-! Association-list lemmas. -/

theorem keys_cons {α : Type} (p : String × α) (l : List (String × α)) :
    keys (p :: l) = p.1 :: keys l := rfl

theorem lookup_cons {α : Type} (k : String) (p : String × α)
    (l : List (String × α)) :
    (p :: l).lookup k = if k = p.1 then some p.2 else l.lookup k := by
  cases p with
  | mk a b =>
    by_cases h : k = a
    · subst h
      simp [List.lookup]
    · have hb : (k == a) = false := beq_eq_false_iff_ne.mpr h
      simp [List.lookup, hb, h]

theorem lookup_setKey_self {α : Type} (l : List (String × α)) (k : String)
    (v : α) : (setKey l k v).lookup k = some v := by
  induction l with
  | nil => simp [setKey, lookup_cons]
  | cons p rest ih =>
    by_cases h : p.1 = k
    · simp [setKey, h, lookup_cons]
    · simp only [setKey, if_neg h, lookup_cons]
      rw [if_neg fun hk => h hk.symm]
      exact ih

theorem lookup_setKey_ne {α : Type} (l : List (String × α)) (k k' : String)
    (v : α) (h : k' ≠ k) : (setKey l k v).lookup k' = l.lookup k' := by
  induction l with
  | nil => simp [setKey, lookup_cons, h]
  | cons p rest ih =>
    by_cases hp : p.1 = k
    · subst hp
      simp [setKey, lookup_cons, h]
    · simp only [setKey, if_neg hp, lookup_cons, ih]

theorem lookup_eq_none_iff {α : Type} (l : List (String × α)) (k : String) :
    l.lookup k = none ↔ k ∉ keys l := by
  induction l with
  | nil => simp [keys]
  | cons p rest ih =>
    by_cases h : k = p.1
    · simp [lookup_cons, h, keys_cons]
    · simp [lookup_cons, h, keys_cons, ih, List.mem_cons]

theorem keys_setKey_of_mem {α : Type} (l : List (String × α)) (k : String)
    (v : α) (h : k ∈ keys l) : keys (setKey l k v) = keys l := by
  induction l with
  | nil => simp [keys] at h
  | cons p rest ih =>
    rw [keys_cons] at h
    by_cases hp : p.1 = k
    · simp [setKey, hp, keys_cons]
    · have hk : k ∈ keys rest := by
        rcases List.mem_cons.mp h with h1 | h1
        · exact absurd h1.symm hp
        · exact h1
      simp only [setKey, if_neg hp, keys_cons, ih hk]

theorem keys_setKey_of_not_mem {α : Type} (l : List (String × α)) (k : String)
    (v : α) (h : k ∉ keys l) : keys (setKey l k v) = keys l ++ [k] := by
  induction l with
  | nil => simp [setKey, keys]
  | cons p rest ih =>
    rw [keys_cons] at h
    have hp : p.1 ≠ k := fun hpk => h (List.mem_cons.mpr (Or.inl hpk.symm))
    have hk : k ∉ keys rest := fun hm => h (List.mem_cons.mpr (Or.inr hm))
    simp only [setKey, if_neg hp, keys_cons, ih hk, List.cons_append]

/-! Characterization of the per-field sampling loop. -/

theorem prepLoop_lookup_of_not_mem (choice : Nat → Nat → Nat → List Nat)
    (ds : List (String × Option Nat)) (X_temp X_bc : List (V × V))
    (iice idbc : List Nat) (fields : List (String × List V)) (t : Nat)
    (X : List (String × List (V × V))) (sol : List (String × List V))
    (k : String) :
    k ∉ keys fields →
      (prepLoop choice ds X_temp X_bc iice idbc fields t X sol).1.lookup k
        = X.lookup k ∧
      (prepLoop choice ds X_temp X_bc iice idbc fields t X sol).2.1.lookup k
        = sol.lookup k := by
  induction fields generalizing t X sol with
  | nil => exact fun _ => ⟨rfl, rfl⟩
  | cons p rest ih =>
    intro hk
    obtain ⟨a, vals⟩ := p
    rw [keys_cons] at hk
    have hne : k ≠ a := fun h => hk (List.mem_cons.mpr (Or.inl h))
    have hk' : k ∉ keys rest := fun h => hk (List.mem_cons.mpr (Or.inr h))
    cases hda : ds.lookup a with
    | none =>
      simp only [prepLoop, hda]
      exact ih t X sol hk'
    | some sz =>
      cases sz with
      | none =>
        simp only [prepLoop, hda]
        have h2 := ih t (setKey X a X_bc)
          (setKey sol a (idbc.map fun i => vals.getD i 0)) hk'
        rw [h2.1, h2.2, lookup_setKey_ne _ _ _ _ hne, lookup_setKey_ne _ _ _ _ hne]
        exact ⟨rfl, rfl⟩
      | some n =>
        simp only [prepLoop, hda]
        have h2 := ih (t + 1)
          (setKey X a ((choice t X_temp.length (min n X_temp.length)).map
            fun j => X_temp.getD j (0, 0)))
          (setKey sol a ((choice t X_temp.length (min n X_temp.length)).map
            fun j => (iice.map fun i => vals.getD i 0).getD j 0)) hk'
        rw [h2.1, h2.2, lookup_setKey_ne _ _ _ _ hne, lookup_setKey_ne _ _ _ _ hne]
        exact ⟨rfl, rfl⟩

theorem prepLoop_lookup_of_mem_count (choice : Nat → Nat → Nat → List Nat)
    (ds : List (String × Option Nat)) (X_temp X_bc : List (V × V))
    (iice idbc : List Nat) (fields : List (String × List V)) (t : Nat)
    (X : List (String × List (V × V))) (sol : List (String × List V))
    (k : String) (vals : List V) (n : Nat) :
    (keys fields).Nodup → (k, vals) ∈ fields → ds.lookup k = some (some n) →
      ∃ t', t ≤ t' ∧
        (prepLoop choice ds X_temp X_bc iice idbc fields t X sol).1.lookup k
          = some ((choice t' X_temp.length (min n X_temp.length)).map
              fun j => X_temp.getD j (0, 0)) ∧
        (prepLoop choice ds X_temp X_bc iice idbc fields t X sol).2.1.lookup k
          = some ((choice t' X_temp.length (min n X_temp.length)).map
              fun j => (iice.map fun i => vals.getD i 0).getD j 0) := by
  induction fields generalizing t X sol with
  | nil => intro _ hmem; exact absurd hmem (List.not_mem_nil _)
  | cons p rest ih =>
    intro hnd hmem hds
    obtain ⟨a, w⟩ := p
    rw [keys_cons] at hnd
    have hnd' : (keys rest).Nodup := hnd.of_cons
    have hanr : a ∉ keys rest := (List.nodup_cons.mp hnd).1
    rcases List.mem_cons.mp hmem with heq | hmem'
    · injection heq with hka hvw
      subst hka
      subst hvw
      simp only [prepLoop, hds]
      have h2 := prepLoop_lookup_of_not_mem choice ds X_temp X_bc iice idbc
        rest (t + 1)
        (setKey X k ((choice t X_temp.length (min n X_temp.length)).map
          fun j => X_temp.getD j (0, 0)))
        (setKey sol k ((choice t X_temp.length (min n X_temp.length)).map
          fun j => (iice.map fun i => vals.getD i 0).getD j 0)) k hanr
      refine ⟨t, le_refl t, ?_, ?_⟩
      · rw [h2.1, lookup_setKey_self]
      · rw [h2.2, lookup_setKey_self]
    · have hka : k ≠ a := by
        intro h
        subst h
        exact hanr (List.mem_map.mpr ⟨(k, vals), hmem', rfl⟩)
      cases hda : ds.lookup a with
      | none =>
        simp only [prepLoop, hda]
        exact ih t X sol hnd' hmem' hds
      | some sz =>
        cases sz with
        | none =>
          simp only [prepLoop, hda]
          exact ih t (setKey X a X_bc)
            (setKey sol a (idbc.map fun i => w.getD i 0)) hnd' hmem' hds
        | some m =>
          simp only [prepLoop, hda]
          obtain ⟨t', ht', hX, hsol⟩ := ih (t + 1)
            (setKey X a ((choice t X_temp.length (min m X_temp.length)).map
              fun j => X_temp.getD j (0, 0)))
            (setKey sol a ((choice t X_temp.length (min m X_temp.length)).map
              fun j => (iice.map fun i => w.getD i 0).getD j 0))
            hnd' hmem' hds
          exact ⟨t', le_trans (Nat.le_succ t) ht', hX, hsol⟩

theorem prepLoop_lookup_of_mem_bc (choice : Nat → Nat → Nat → List Nat)
    (ds : List (String × Option Nat)) (X_temp X_bc : List (V × V))
    (iice idbc : List Nat) (fields : List (String × List V)) (t : Nat)
    (X : List (String × List (V × V))) (sol : List (String × List V))
    (k : String) (vals : List V) :
    (keys fields).Nodup → (k, vals) ∈ fields → ds.lookup k = some none →
      (prepLoop choice ds X_temp X_bc iice idbc fields t X sol).1.lookup k
        = some X_bc ∧
      (prepLoop choice ds X_temp X_bc iice idbc fields t X sol).2.1.lookup k
        = some (idbc.map fun i => vals.getD i 0) := by
  induction fields generalizing t X sol with
  | nil => intro _ hmem; exact absurd hmem (List.not_mem_nil _)
  | cons p rest ih =>
    intro hnd hmem hds
    obtain ⟨a, w⟩ := p
    rw [keys_cons] at hnd
    have hnd' : (keys rest).Nodup := hnd.of_cons
    have hanr : a ∉ keys rest := (List.nodup_cons.mp hnd).1
    rcases List.mem_cons.mp hmem with heq | hmem'
    · injection heq with hka hvw
      subst hka
      subst hvw
      simp only [prepLoop, hds]
      have h2 := prepLoop_lookup_of_not_mem choice ds X_temp X_bc iice idbc
        rest t (setKey X k X_bc)
        (setKey sol k (idbc.map fun i => vals.getD i 0)) k hanr
      constructor
      · rw [h2.1, lookup_setKey_self]
      · rw [h2.2, lookup_setKey_self]
    · have hka : k ≠ a := by
        intro h
        subst h
        exact hanr (List.mem_map.mpr ⟨(k, vals), hmem', rfl⟩)
      cases hda : ds.lookup a with
      | none =>
        simp only [prepLoop, hda]
        exact ih t X sol hnd' hmem' hds
      | some sz =>
        cases sz with
        | none =>
          simp only [prepLoop, hda]
          exact ih t (setKey X a X_bc)
            (setKey sol a (idbc.map fun i => w.getD i 0)) hnd' hmem' hds
        | some m =>
          simp only [prepLoop, hda]
          exact ih (t + 1)
            (setKey X a ((choice t X_temp.length (min m X_temp.length)).map
              fun j => X_temp.getD j (0, 0)))
            (setKey sol a ((choice t X_temp.length (min m X_temp.length)).map
              fun j => (iice.map fun i => w.getD i 0).getD j 0))
            hnd' hmem' hds

theorem getD_map_of_lt {α β : Type} (f : α → β) (l : List α) (j : Nat)
    (dβ : β) (dα : α) (h : j < l.length) :
    (l.map f).getD j dβ = f (l.getD j dα) := by
  induction l generalizing j with
  | nil => simp at h
  | cons x xs ih =>
    cases j with
    | zero => rfl
    | succ m => exact ih m (Nat.lt_of_succ_lt_succ h)

theorem prepLoop_keys (choice : Nat → Nat → Nat → List Nat)
    (ds : List (String × Option Nat)) (X_temp X_bc : List (V × V))
    (iice idbc : List Nat) (fields : List (String × List V)) (t : Nat)
    (X : List (String × List (V × V))) (sol : List (String × List V)) :
    (keys X ++ keys fields).Nodup → (keys sol ++ keys fields).Nodup →
      keys (prepLoop choice ds X_temp X_bc iice idbc fields t X sol).1
        = keys X ++ (keys fields).filter (fun a => (ds.lookup a).isSome) ∧
      keys (prepLoop choice ds X_temp X_bc iice idbc fields t X sol).2.1
        = keys sol ++ (keys fields).filter (fun a => (ds.lookup a).isSome) := by
  induction fields generalizing t X sol with
  | nil =>
    intro _ _
    simp [prepLoop, keys]
  | cons p rest ih =>
    intro hX hsol
    obtain ⟨a, w⟩ := p
    rw [keys_cons] at hX hsol
    have haX : a ∉ keys X := by
      intro hmem
      exact (List.nodup_append.mp hX).2.2 hmem (List.mem_cons_self a _)
    have hasol : a ∉ keys sol := by
      intro hmem
      exact (List.nodup_append.mp hsol).2.2 hmem (List.mem_cons_self a _)
    have hXr : (keys X ++ keys rest).Nodup :=
      hX.sublist ((List.sublist_cons_self a (keys rest)).append_left (keys X))
    have hsolr : (keys sol ++ keys rest).Nodup :=
      hsol.sublist ((List.sublist_cons_self a (keys rest)).append_left (keys sol))
    have hXa : ∀ v : List (V × V), (keys (setKey X a v) ++ keys rest).Nodup := by
      intro v
      rw [keys_setKey_of_not_mem X a v haX]
      simpa [List.append_assoc] using hX
    have hsola : ∀ v : List V, (keys (setKey sol a v) ++ keys rest).Nodup := by
      intro v
      rw [keys_setKey_of_not_mem sol a v hasol]
      simpa [List.append_assoc] using hsol
    cases hda : ds.lookup a with
    | none =>
      simp only [prepLoop, hda]
      have hi := ih t X sol hXr hsolr
      rw [hi.1, hi.2, keys_cons]
      constructor <;> simp [List.filter_cons, hda]
    | some sz =>
      cases sz with
      | none =>
        simp only [prepLoop, hda]
        have hi := ih t (setKey X a X_bc)
          (setKey sol a (idbc.map fun i => w.getD i 0))
          (hXa X_bc) (hsola (idbc.map fun i => w.getD i 0))
        rw [hi.1, hi.2, keys_setKey_of_not_mem X a _ haX,
          keys_setKey_of_not_mem sol a _ hasol, keys_cons]
        constructor <;> simp [List.filter_cons, hda, List.append_assoc]
      | some n =>
        simp only [prepLoop, hda]
        have hi := ih (t + 1)
          (setKey X a ((choice t X_temp.length (min n X_temp.length)).map
            fun j => X_temp.getD j (0, 0)))
          (setKey sol a ((choice t X_temp.length (min n X_temp.length)).map
            fun j => (iice.map fun i => w.getD i 0).getD j 0))
          (hXa _) (hsola _)
        rw [hi.1, hi.2, keys_setKey_of_not_mem X a _ haX,
          keys_setKey_of_not_mem sol a _ hasol, keys_cons]
        constructor <;> simp [List.filter_cons, hda, List.append_assoc]

theorem prepare_training_data_eq (d : ISSMmdData V)
    (choice : Nat → Nat → Nat → List Nat) (t0 : Nat)
    (dsa : Option (List (String × Option Nat))) (iice : List Nat)
    (DBC : List V) (hice : d.get_ice_indices = some iice)
    (hdbc : d.mask_dict.lookup "DBC_mask" = some DBC) :
    d.prepare_training_data choice t0 dsa =
      some ({ d with
        X := (prepLoop choice
          (match dsa with
           | none => d.parameters.data_size
           | some l => l)
          (iice.map fun i => (d.X_dict_x.getD i 0, d.X_dict_y.getD i 0))
          (((List.range DBC.length).filter fun i => 0 < DBC.getD i 0).map
            fun i => (d.X_dict_x.getD i 0, d.X_dict_y.getD i 0))
          iice ((List.range DBC.length).filter fun i => 0 < DBC.getD i 0)
          d.data_dict t0 [] []).1,
        sol := (prepLoop choice
          (match dsa with
           | none => d.parameters.data_size
           | some l => l)
          (iice.map fun i => (d.X_dict_x.getD i 0, d.X_dict_y.getD i 0))
          (((List.range DBC.length).filter fun i => 0 < DBC.getD i 0).map
            fun i => (d.X_dict_x.getD i 0, d.X_dict_y.getD i 0))
          iice ((List.range DBC.length).filter fun i => 0 < DBC.getD i 0)
          d.data_dict t0 [] []).2.1 },
        (prepLoop choice
          (match dsa with
           | none => d.parameters.data_size
           | some l => l)
          (iice.map fun i => (d.X_dict_x.getD i 0, d.X_dict_y.getD i 0))
          (((List.range DBC.length).filter fun i => 0 < DBC.getD i 0).map
            fun i => (d.X_dict_x.getD i 0, d.X_dict_y.getD i 0))
          iice ((List.range DBC.length).filter fun i => 0 < DBC.getD i 0)
          d.data_dict t0 [] []).2.2) := by
  simp only [ISSMmdData.prepare_training_data, hice, hdbc, Option.bind_eq_bind,
    Option.some_bind, Option.pure_def]
  rfl

theorem prepare_isSome_inv (d : ISSMmdData V)
    (choice : Nat → Nat → Nat → List Nat) (t0 : Nat)
    (dsa : Option (List (String × Option Nat))) (res : ISSMmdData V × Nat)
    (hres : d.prepare_training_data choice t0 dsa = some res) :
    ∃ iice DBC, d.get_ice_indices = some iice ∧
      d.mask_dict.lookup "DBC_mask" = some DBC := by
  cases hice : d.get_ice_indices with
  | none =>
    unfold ISSMmdData.prepare_training_data at hres
    rw [hice] at hres
    simp at hres
  | some iice =>
    cases hdbc : d.mask_dict.lookup "DBC_mask" with
    | none =>
      unfold ISSMmdData.prepare_training_data at hres
      rw [hice, hdbc] at hres
      simp at hres
    | some DBC => exact ⟨iice, DBC, rfl, rfl⟩

theorem prepare_output_keys (d : ISSMmdData V)
    (choice : Nat → Nat → Nat → List Nat) (t0 : Nat)
    (dsa : Option (List (String × Option Nat))) (res : ISSMmdData V × Nat)
    (hnd : (keys d.data_dict).Nodup)
    (hres : d.prepare_training_data choice t0 dsa = some res) :
    keys res.1.X = (keys d.data_dict).filter (fun a =>
      (((match dsa with
         | none => d.parameters.data_size
         | some l => l) : List (String × Option Nat)).lookup a).isSome) ∧
    keys res.1.sol = (keys d.data_dict).filter (fun a =>
      (((match dsa with
         | none => d.parameters.data_size
         | some l => l) : List (String × Option Nat)).lookup a).isSome) := by
  cases dsa with
  | none =>
    obtain ⟨iice, DBC, hice, hdbc⟩ := prepare_isSome_inv d choice t0 none res hres
    rw [prepare_training_data_eq d choice t0 none iice DBC hice hdbc] at hres
    injection hres with h
    have hk := prepLoop_keys choice d.parameters.data_size
      (iice.map fun i => (d.X_dict_x.getD i 0, d.X_dict_y.getD i 0))
      (((List.range DBC.length).filter fun i => 0 < DBC.getD i 0).map
        fun i => (d.X_dict_x.getD i 0, d.X_dict_y.getD i 0))
      iice ((List.range DBC.length).filter fun i => 0 < DBC.getD i 0)
      d.data_dict t0 [] [] (by simpa [keys] using hnd) (by simpa [keys] using hnd)
    rw [← h]
    simpa [keys] using hk
  | some l =>
    obtain ⟨iice, DBC, hice, hdbc⟩ :=
      prepare_isSome_inv d choice t0 (some l) res hres
    rw [prepare_training_data_eq d choice t0 (some l) iice DBC hice hdbc] at hres
    injection hres with h
    have hk := prepLoop_keys choice l
      (iice.map fun i => (d.X_dict_x.getD i 0, d.X_dict_y.getD i 0))
      (((List.range DBC.length).filter fun i => 0 < DBC.getD i 0).map
        fun i => (d.X_dict_x.getD i 0, d.X_dict_y.getD i 0))
      iice ((List.range DBC.length).filter fun i => 0 < DBC.getD i 0)
      d.data_dict t0 [] [] (by simpa [keys] using hnd) (by simpa [keys] using hnd)
    rw [← h]
    simpa [keys] using hk

/-! Lemmas on the aggregate merge. -/

theorem lookup_mergeDict_of_not_mem {α : Type}
    (acc new : List (String × List α)) (k : String) :
    k ∉ keys new → (mergeDict acc new).lookup k = acc.lookup k := by
  induction new generalizing acc with
  | nil => intro _; rfl
  | cons p rest ih =>
    intro hk
    rw [keys_cons] at hk
    have hne : k ≠ p.1 := fun h => hk (List.mem_cons.mpr (Or.inl h))
    have hk' : k ∉ keys rest := fun h => hk (List.mem_cons.mpr (Or.inr h))
    have hunf : mergeDict acc (p :: rest) = mergeDict (match acc.lookup p.1 with
      | none => setKey acc p.1 p.2
      | some old => setKey acc p.1 (old ++ p.2)) rest := rfl
    rw [hunf, ih (match acc.lookup p.1 with
      | none => setKey acc p.1 p.2
      | some old => setKey acc p.1 (old ++ p.2)) hk']
    cases hl : acc.lookup p.1 with
    | none => simp only [lookup_setKey_ne _ _ _ _ hne]
    | some old => simp only [lookup_setKey_ne _ _ _ _ hne]

theorem lookup_mergeDict {α : Type} (acc new : List (String × List α))
    (k : String) :
    (keys new).Nodup →
      (mergeDict acc new).lookup k =
        match new.lookup k with
        | none => acc.lookup k
        | some arr => some ((acc.lookup k).getD [] ++ arr) := by
  induction new generalizing acc with
  | nil => intro _; rfl
  | cons p rest ih =>
    intro hnd
    rw [keys_cons] at hnd
    have hpr : p.1 ∉ keys rest := (List.nodup_cons.mp hnd).1
    have hnd' : (keys rest).Nodup := (List.nodup_cons.mp hnd).2
    have hunf : mergeDict acc (p :: rest) = mergeDict (match acc.lookup p.1 with
      | none => setKey acc p.1 p.2
      | some old => setKey acc p.1 (old ++ p.2)) rest := rfl
    by_cases hkp : k = p.1
    · subst hkp
      have hnm := lookup_mergeDict_of_not_mem (match acc.lookup p.1 with
        | none => setKey acc p.1 p.2
        | some old => setKey acc p.1 (old ++ p.2)) rest p.1 hpr
      rw [hunf, hnm, lookup_cons, if_pos rfl]
      cases hl : acc.lookup p.1 with
      | none => simp [lookup_setKey_self]
      | some old => simp [lookup_setKey_self]
    · have hstep : (match acc.lookup p.1 with
          | none => setKey acc p.1 p.2
          | some old => setKey acc p.1 (old ++ p.2)).lookup k = acc.lookup k := by
        cases hl : acc.lookup p.1 with
        | none => simp only [lookup_setKey_ne _ _ _ _ hkp]
        | some old => simp only [lookup_setKey_ne _ _ _ _ hkp]
      rw [hunf, ih (match acc.lookup p.1 with
        | none => setKey acc p.1 p.2
        | some old => setKey acc p.1 (old ++ p.2)) hnd', hstep, lookup_cons,
        if_neg hkp]

theorem vstackFold_getD {α : Type} (init : Option (List α))
    (cs : List (Option (List α))) :
    (vstackFold init cs).getD []
      = init.getD [] ++ (cs.map (fun c => c.getD [])).flatten := by
  induction cs generalizing init with
  | nil => simp [vstackFold]
  | cons c rest ih =>
    cases c with
    | none =>
      have hunf : vstackFold init (none :: rest) = vstackFold init rest := rfl
      rw [hunf, ih init]
      simp
    | some arr =>
      have hunf : vstackFold init (some arr :: rest)
          = vstackFold (some (init.getD [] ++ arr)) rest := rfl
      rw [hunf, ih (some (init.getD [] ++ arr))]
      simp [List.append_assoc]

theorem vstackFold_isSome {α : Type} (init : Option (List α))
    (cs : List (Option (List α))) :
    (vstackFold init cs).isSome = (init.isSome || cs.any (fun c => c.isSome)) := by
  induction cs generalizing init with
  | nil => simp [vstackFold]
  | cons c rest ih =>
    cases c with
    | none =>
      have hunf : vstackFold init (none :: rest) = vstackFold init rest := rfl
      rw [hunf, ih init]
      simp
    | some arr =>
      have hunf : vstackFold init (some arr :: rest)
          = vstackFold (some (init.getD [] ++ arr)) rest := rfl
      rw [hunf, ih (some (init.getD [] ++ arr))]
      simp

theorem dataPrepLoop_lookup (choice : Nat → Nat → Nat → List Nat)
    (loaders : List (String × ISSMmdData V)) (t : Nat)
    (X : List (String × List (V × V))) (sol : List (String × List V))
    (r : List (String × ISSMmdData V) × List (String × List (V × V)) ×
      List (String × List V) × Nat) (k : String) :
    (∀ p ∈ loaders, (keys p.2.data_dict).Nodup) →
      dataPrepLoop choice loaders t X sol = some r →
      r.2.1.lookup k
          = vstackFold (X.lookup k) (r.1.map fun p => p.2.X.lookup k) ∧
        r.2.2.1.lookup k
          = vstackFold (sol.lookup k) (r.1.map fun p => p.2.sol.lookup k) := by
  induction loaders generalizing t X sol r with
  | nil =>
    intro _ hr
    injection hr with h
    rw [← h]
    exact ⟨rfl, rfl⟩
  | cons p rest ih =>
    intro hnd hr
    obtain ⟨key, d⟩ := p
    have hndd : (keys d.data_dict).Nodup := hnd (key, d) (List.mem_cons_self _ _)
    have hndr : ∀ q ∈ rest, (keys q.2.data_dict).Nodup :=
      fun q hq => hnd q (List.mem_cons_of_mem _ hq)
    rw [dataPrepLoop] at hr
    cases hp : d.prepare_training_data choice t with
    | none => rw [hp] at hr; simp at hr
    | some pr =>
      rw [hp] at hr
      simp only [Option.bind_eq_bind, Option.some_bind] at hr
      cases hq : dataPrepLoop choice rest pr.2 (mergeDict X pr.1.X)
          (mergeDict sol pr.1.sol) with
      | none => rw [hq] at hr; simp at hr
      | some r2 =>
        rw [hq] at hr
        simp only [Option.some_bind, Option.pure_def, Option.some.injEq] at hr
        have hi := ih pr.2 (mergeDict X pr.1.X) (mergeDict sol pr.1.sol) r2
          hndr hq
        have hkX : (keys pr.1.X).Nodup := by
          rw [(prepare_output_keys d choice t none pr hndd hp).1]
          exact hndd.filter _
        have hksol : (keys pr.1.sol).Nodup := by
          rw [(prepare_output_keys d choice t none pr hndd hp).2]
          exact hndd.filter _
        rw [← hr]
        refine ⟨?_, ?_⟩
        · rw [show ((key, pr.1) :: r2.1, r2.2.1, r2.2.2.1, r2.2.2.2).2.1 = r2.2.1
            from rfl, hi.1, lookup_mergeDict X pr.1.X k hkX, List.map_cons]
          rfl
        · rw [show ((key, pr.1) :: r2.1, r2.2.1, r2.2.2.1, r2.2.2.2).2.2.1
              = r2.2.2.1 from rfl, hi.2, lookup_mergeDict sol pr.1.sol k hksol,
            List.map_cons]
          rfl

/-! Claim theorems. -/

/-- C6: for a loaded `ISSMmdData` loader, `get_ice_indices` with an empty
mask name or a mask name not present in `mask_dict` returns exactly the
same index set as `get_ice_indices "icemask"` (the indices whose ice-mask
value is negative), and no error is raised for an unknown mask name as
long as the ice mask itself is present. -/
theorem C6_get_ice_indices_unknown_mask (d : ISSMmdData V) (mask_name : String)
    (h : mask_name = "" ∨ d.mask_dict.lookup mask_name = none) :
    d.get_ice_indices mask_name = d.get_ice_indices "icemask" ∧
      ((d.mask_dict.lookup "icemask").isSome →
        (d.get_ice_indices mask_name).isSome) := by
  have hres : ∀ s : String,
      ((s = "" ∨ d.mask_dict.lookup s = none) ∨ s = "icemask") →
      d.get_ice_indices s = (d.mask_dict.lookup "icemask").map fun icemask =>
        (List.range icemask.length).filter fun i => icemask.getD i 0 < 0 := by
    intro s hs
    unfold ISSMmdData.get_ice_indices
    rcases hs with (hs | hs) | hs
    · subst hs
      simp
    · simp [hs]
    · subst hs
      by_cases hic : (d.mask_dict.lookup "icemask").isNone
      · simp [hic]
      · simp [hic]
  constructor
  · rw [hres mask_name (Or.inl h), hres "icemask" (Or.inr rfl)]
  · intro hs
    rw [hres mask_name (Or.inl h)]
    obtain ⟨a, ha⟩ := Option.isSome_iff_exists.mp hs
    rw [ha]
    rfl

/-- C6 witness: on the loaded demo loader, the unknown mask name `foo`
behaves exactly like `icemask` and raises no error. -/
theorem C6_witness :
    demoLoader.get_ice_indices "foo" = demoLoader.get_ice_indices "icemask" ∧
      ((demoLoader.mask_dict.lookup "icemask").isSome →
        (demoLoader.get_ice_indices "foo").isSome) :=
  C6_get_ice_indices_unknown_mask demoLoader "foo" (Or.inr (by decide))

/-- C7: `DataBase.create` fails if and only if the requested source-type
tag was never registered by a subclass; the failure happens at creation,
and for a registered tag it returns a fresh instance of the registered
implementation holding the given configuration, with empty dictionaries
(no file I/O has happened). -/
theorem C7_create_registry (VV : Type) (tag : String) (p : SingleDataParameter) :
    ((∃ e, DataBase.create VV tag p = Except.error e) ↔
        tag ∉ DataBase.subclasses) ∧
      (tag ∈ DataBase.subclasses →
        DataBase.create VV tag p = Except.ok
          { parameters := p, X_dict_x := [], X_dict_y := [], data_dict := [],
            mask_dict := [], X := [], sol := [] }) := by
  unfold DataBase.create
  by_cases h : tag ∈ DataBase.subclasses
  · simp [h]
  · simp [h]

/-- C7 witness: the unregistered tag `FOO` is rejected immediately. -/
theorem C7_witness :
    ((∃ e, DataBase.create ℚ "FOO" demoParams = Except.error e) ↔
        "FOO" ∉ DataBase.subclasses) ∧
      ("FOO" ∈ DataBase.subclasses →
        DataBase.create ℚ "FOO" demoParams = Except.ok
          { parameters := demoParams, X_dict_x := [], X_dict_y := [],
            data_dict := [], mask_dict := [], X := [], sol := [] }) :=
  C7_create_registry ℚ "FOO" demoParams

/-- C10: a key of `data_size` that names no field of `data_dict` is
silently ignored by `ISSMmdData.prepare_training_data`: no error is
raised and no `X` or `sol` entry is created for it, because the sampling
loop iterates over the keys of `data_dict`. -/
theorem C10_unknown_data_size_key (d : ISSMmdData V)
    (choice : Nat → Nat → Nat → List Nat) (t0 : Nat)
    (ds : List (String × Option Nat)) (k : String)
    (hk : k ∉ keys d.data_dict)
    (hice : (d.get_ice_indices).isSome)
    (hdbc : (d.mask_dict.lookup "DBC_mask").isSome) :
    ∃ res, d.prepare_training_data choice t0 (some ds) = some res ∧
      res.1.X.lookup k = none ∧ res.1.sol.lookup k = none := by
  obtain ⟨iice, hiceEq⟩ := Option.isSome_iff_exists.mp hice
  obtain ⟨DBC, hdbcEq⟩ := Option.isSome_iff_exists.mp hdbc
  have h2 := prepLoop_lookup_of_not_mem choice ds
    (iice.map fun i => (d.X_dict_x.getD i 0, d.X_dict_y.getD i 0))
    (((List.range DBC.length).filter fun i => 0 < DBC.getD i 0).map
      fun i => (d.X_dict_x.getD i 0, d.X_dict_y.getD i 0))
    iice ((List.range DBC.length).filter fun i => 0 < DBC.getD i 0)
    d.data_dict t0 [] [] k hk
  set r := prepLoop choice ds
    (iice.map fun i => (d.X_dict_x.getD i 0, d.X_dict_y.getD i 0))
    (((List.range DBC.length).filter fun i => 0 < DBC.getD i 0).map
      fun i => (d.X_dict_x.getD i 0, d.X_dict_y.getD i 0))
    iice ((List.range DBC.length).filter fun i => 0 < DBC.getD i 0)
    d.data_dict t0 [] [] with hr
  refine ⟨({ d with X := r.1, sol := r.2.1 }, r.2.2), ?_, h2.1, h2.2⟩
  simp [ISSMmdData.prepare_training_data, hiceEq, hdbcEq, hr]

/-- C10 witness: a `data_size` containing only the unknown field name
`zz` yields a successful call with no `zz` entry in `X` or `sol`. -/
theorem C10_witness :
    ∃ res, demoLoader.prepare_training_data rangeChoice 0
        (some [("zz", some 3)]) = some res ∧
      res.1.X.lookup "zz" = none ∧ res.1.sol.lookup "zz" = none :=
  C10_unknown_data_size_key demoLoader rangeChoice 0 [("zz", some 3)] "zz"
    (by decide) (by decide) (by decide)

/-- C5: after `prepare_training_data` on a loaded loader, the key set of
`X` (and of `sol`) is exactly the set of field names present in both
`data_dict` and `data_size`, in `data_dict` iteration order; a field of
`data_dict` absent from `data_size` is skipped entirely. -/
theorem C5_output_key_set (d : ISSMmdData V)
    (choice : Nat → Nat → Nat → List Nat) (t0 : Nat)
    (ds : List (String × Option Nat)) (res : ISSMmdData V × Nat)
    (hnd : (keys d.data_dict).Nodup)
    (hres : d.prepare_training_data choice t0 (some ds) = some res) :
    keys res.1.X = (keys d.data_dict).filter (fun a => (ds.lookup a).isSome) ∧
      keys res.1.sol
        = (keys d.data_dict).filter (fun a => (ds.lookup a).isSome) := by
  obtain ⟨iice, DBC, hice, hdbc⟩ := prepare_isSome_inv d choice t0 (some ds) res hres
  rw [prepare_training_data_eq d choice t0 (some ds) iice DBC hice hdbc] at hres
  injection hres with h
  have hk := prepLoop_keys choice ds
    (iice.map fun i => (d.X_dict_x.getD i 0, d.X_dict_y.getD i 0))
    (((List.range DBC.length).filter fun i => 0 < DBC.getD i 0).map
      fun i => (d.X_dict_x.getD i 0, d.X_dict_y.getD i 0))
    iice ((List.range DBC.length).filter fun i => 0 < DBC.getD i 0)
    d.data_dict t0 [] [] (by simpa [keys] using hnd) (by simpa [keys] using hnd)
  rw [← h]
  simpa [keys] using hk

/-- C5 witness: with `data_size` requesting `u` with a count and `C` in
boundary mode, the produced dictionaries have exactly the keys `u`, `C`
(the field `H` of `data_dict` is skipped). -/
theorem C5_witness :
    keys ({ demoLoader with
        X := [("u", [(10, 1), (30, 3)]), ("C", [(20, 2), (30, 3)])],
        sol := [("u", [5, 7]), ("C", [9, 11])] } : ISSMmdData ℚ).X
      = (keys demoLoader.data_dict).filter
          (fun a => (([("u", some 2), ("C", none)] :
            List (String × Option Nat)).lookup a).isSome) ∧
    keys ({ demoLoader with
        X := [("u", [(10, 1), (30, 3)]), ("C", [(20, 2), (30, 3)])],
        sol := [("u", [5, 7]), ("C", [9, 11])] } : ISSMmdData ℚ).sol
      = (keys demoLoader.data_dict).filter
          (fun a => (([("u", some 2), ("C", none)] :
            List (String × Option Nat)).lookup a).isSome) :=
  C5_output_key_set demoLoader rangeChoice 0 [("u", some 2), ("C", none)]
    ({ demoLoader with
        X := [("u", [(10, 1), (30, 3)]), ("C", [(20, 2), (30, 3)])],
        sol := [("u", [5, 7]), ("C", [9, 11])] }, 1)
    (by decide) rfl

/-- C2: for a field `k` with `data_size[k] = None`, `prepare_training_data`
sets `X[k]` to the full boundary coordinate set (vertices whose `DBC_mask`
value is positive, no subsampling) and `sol[k]` to the field values at
those boundary indices; the branch never consults the random generator, so
any two calls on the same loader state agree on `X[k]` and `sol[k]`. -/
theorem C2_boundary_mode (d : ISSMmdData V)
    (choice : Nat → Nat → Nat → List Nat) (t0 : Nat)
    (ds : List (String × Option Nat)) (k : String) (vals : List V)
    (res : ISSMmdData V × Nat)
    (hnd : (keys d.data_dict).Nodup)
    (hmem : (k, vals) ∈ d.data_dict)
    (hds : ds.lookup k = some none)
    (hres : d.prepare_training_data choice t0 (some ds) = some res) :
    (∃ DBC, d.mask_dict.lookup "DBC_mask" = some DBC ∧
      res.1.X.lookup k = some
        (((List.range DBC.length).filter fun i => 0 < DBC.getD i 0).map
          fun i => (d.X_dict_x.getD i 0, d.X_dict_y.getD i 0)) ∧
      res.1.sol.lookup k = some
        (((List.range DBC.length).filter fun i => 0 < DBC.getD i 0).map
          fun i => vals.getD i 0)) ∧
    (∀ (choice2 : Nat → Nat → Nat → List Nat) (t2 : Nat)
        (res2 : ISSMmdData V × Nat),
      d.prepare_training_data choice2 t2 (some ds) = some res2 →
        res2.1.X.lookup k = res.1.X.lookup k ∧
        res2.1.sol.lookup k = res.1.sol.lookup k) := by
  obtain ⟨iice, DBC, hice, hdbc⟩ := prepare_isSome_inv d choice t0 (some ds) res hres
  have main : ∀ (choice2 : Nat → Nat → Nat → List Nat) (t2 : Nat)
      (res2 : ISSMmdData V × Nat),
      d.prepare_training_data choice2 t2 (some ds) = some res2 →
      res2.1.X.lookup k = some
        (((List.range DBC.length).filter fun i => 0 < DBC.getD i 0).map
          fun i => (d.X_dict_x.getD i 0, d.X_dict_y.getD i 0)) ∧
      res2.1.sol.lookup k = some
        (((List.range DBC.length).filter fun i => 0 < DBC.getD i 0).map
          fun i => vals.getD i 0) := by
    intro choice2 t2 res2 hres2
    rw [prepare_training_data_eq d choice2 t2 (some ds) iice DBC hice hdbc]
      at hres2
    injection hres2 with h
    have hbc := prepLoop_lookup_of_mem_bc choice2 ds
      (iice.map fun i => (d.X_dict_x.getD i 0, d.X_dict_y.getD i 0))
      (((List.range DBC.length).filter fun i => 0 < DBC.getD i 0).map
        fun i => (d.X_dict_x.getD i 0, d.X_dict_y.getD i 0))
      iice ((List.range DBC.length).filter fun i => 0 < DBC.getD i 0)
      d.data_dict t2 [] [] k vals hnd hmem hds
    rw [← h]
    exact hbc
  refine ⟨⟨DBC, hdbc, main choice t0 res hres⟩, ?_⟩
  intro choice2 t2 res2 hres2
  have h1 := main choice t0 res hres
  have h2 := main choice2 t2 res2 hres2
  rw [h1.1, h1.2, h2.1, h2.2]
  exact ⟨rfl, rfl⟩

/-- C2 witness: on the demo loader the boundary-mode field `C` receives
the two boundary vertices, independently of the generator. -/
theorem C2_witness :
    (∃ DBC, demoLoader.mask_dict.lookup "DBC_mask" = some DBC ∧
      (({ demoLoader with
          X := [("u", [(10, 1), (30, 3)]), ("C", [(20, 2), (30, 3)])],
          sol := [("u", [5, 7]), ("C", [9, 11])] } : ISSMmdData ℚ),
          (1 : Nat)).1.X.lookup "C" = some
        (((List.range DBC.length).filter fun i => 0 < DBC.getD i 0).map
          fun i => (demoLoader.X_dict_x.getD i 0, demoLoader.X_dict_y.getD i 0)) ∧
      (({ demoLoader with
          X := [("u", [(10, 1), (30, 3)]), ("C", [(20, 2), (30, 3)])],
          sol := [("u", [5, 7]), ("C", [9, 11])] } : ISSMmdData ℚ),
          (1 : Nat)).1.sol.lookup "C" = some
        (((List.range DBC.length).filter fun i => 0 < DBC.getD i 0).map
          fun i => ([8, 9, 11] : List ℚ).getD i 0)) ∧
    (∀ (choice2 : Nat → Nat → Nat → List Nat) (t2 : Nat)
        (res2 : ISSMmdData ℚ × Nat),
      demoLoader.prepare_training_data choice2 t2
          (some [("u", some 2), ("C", none)]) = some res2 →
        res2.1.X.lookup "C" = (({ demoLoader with
          X := [("u", [(10, 1), (30, 3)]), ("C", [(20, 2), (30, 3)])],
          sol := [("u", [5, 7]), ("C", [9, 11])] } : ISSMmdData ℚ),
          (1 : Nat)).1.X.lookup "C" ∧
        res2.1.sol.lookup "C" = (({ demoLoader with
          X := [("u", [(10, 1), (30, 3)]), ("C", [(20, 2), (30, 3)])],
          sol := [("u", [5, 7]), ("C", [9, 11])] } : ISSMmdData ℚ),
          (1 : Nat)).1.sol.lookup "C") :=
  C2_boundary_mode demoLoader rangeChoice 0
    [("u", some 2), ("C", none)] "C" [8, 9, 11]
    ({ demoLoader with
        X := [("u", [(10, 1), (30, 3)]), ("C", [(20, 2), (30, 3)])],
        sol := [("u", [5, 7]), ("C", [9, 11])] }, 1)
    (by decide) (by decide) (by decide) rfl

theorem rangeChoice_valid : ValidChoice rangeChoice := fun _ _ c hc =>
  ⟨List.length_range c, List.nodup_range c,
    fun i hi => lt_of_lt_of_le (List.mem_range.mp hi) hc⟩

/-- C1: for a field `k` requested with count `n`, sampling draws
`min n m` pairwise-distinct ice-region indices (`m` = number of ice
vertices, mask value negative); `X[k]` and `sol[k]` both have exactly
that many rows and are index-aligned: row `i` of `sol[k]` is the field
value at the same ice vertex whose coordinates form row `i` of `X[k]`. -/
theorem C1_random_sample (d : ISSMmdData V)
    (choice : Nat → Nat → Nat → List Nat) (t0 : Nat)
    (ds : List (String × Option Nat)) (k : String) (vals : List V) (n : Nat)
    (res : ISSMmdData V × Nat)
    (hvc : ValidChoice choice)
    (hnd : (keys d.data_dict).Nodup)
    (hmem : (k, vals) ∈ d.data_dict)
    (hds : ds.lookup k = some (some n))
    (hres : d.prepare_training_data choice t0 (some ds) = some res) :
    ∃ (iice : List Nat) (Xk : List (V × V)) (solk : List V) (idx : List Nat),
      d.get_ice_indices = some iice ∧
      res.1.X.lookup k = some Xk ∧
      res.1.sol.lookup k = some solk ∧
      Xk.length = min n iice.length ∧
      solk.length = min n iice.length ∧
      idx.Nodup ∧ (∀ j ∈ idx, j < iice.length) ∧
      Xk = idx.map (fun j =>
        (d.X_dict_x.getD (iice.getD j 0) 0,
         d.X_dict_y.getD (iice.getD j 0) 0)) ∧
      solk = idx.map (fun j => vals.getD (iice.getD j 0) 0) := by
  obtain ⟨iice, DBC, hice, hdbc⟩ := prepare_isSome_inv d choice t0 (some ds) res hres
  rw [prepare_training_data_eq d choice t0 (some ds) iice DBC hice hdbc] at hres
  injection hres with h
  obtain ⟨t', ht', hX, hsol⟩ := prepLoop_lookup_of_mem_count choice ds
    (iice.map fun i => (d.X_dict_x.getD i 0, d.X_dict_y.getD i 0))
    (((List.range DBC.length).filter fun i => 0 < DBC.getD i 0).map
      fun i => (d.X_dict_x.getD i 0, d.X_dict_y.getD i 0))
    iice ((List.range DBC.length).filter fun i => 0 < DBC.getD i 0)
    d.data_dict t0 [] [] k vals n hnd hmem hds
  have hlen : (iice.map fun i =>
      (d.X_dict_x.getD i 0, d.X_dict_y.getD i 0)).length = iice.length :=
    List.length_map _ _
  rw [hlen] at hX hsol
  have hvc' := hvc t' iice.length (min n iice.length)
    (min_le_right n iice.length)
  refine ⟨iice,
    (choice t' iice.length (min n iice.length)).map (fun j =>
      (iice.map fun i => (d.X_dict_x.getD i 0, d.X_dict_y.getD i 0)).getD j (0, 0)),
    (choice t' iice.length (min n iice.length)).map (fun j =>
      (iice.map fun i => vals.getD i 0).getD j 0),
    choice t' iice.length (min n iice.length),
    hice, ?_, ?_, ?_, ?_, hvc'.2.1, hvc'.2.2, ?_, ?_⟩
  · rw [← h]
    exact hX
  · rw [← h]
    exact hsol
  · rw [List.length_map, hvc'.1]
  · rw [List.length_map, hvc'.1]
  · refine List.map_congr_left ?_
    intro j hj
    exact getD_map_of_lt _ iice j (0, 0) 0 (hvc'.2.2 j hj)
  · refine List.map_congr_left ?_
    intro j hj
    exact getD_map_of_lt _ iice j 0 0 (hvc'.2.2 j hj)

/-- C1 witness: on the demo loader, the field `u` requested with count 2
receives two distinct ice vertices with aligned coordinates and values. -/
theorem C1_witness :
    ∃ (iice : List Nat) (Xk : List (ℚ × ℚ)) (solk : List ℚ) (idx : List Nat),
      demoLoader.get_ice_indices = some iice ∧
      (({ demoLoader with
          X := [("u", [(10, 1), (30, 3)]), ("C", [(20, 2), (30, 3)])],
          sol := [("u", [5, 7]), ("C", [9, 11])] } : ISSMmdData ℚ),
        (1 : Nat)).1.X.lookup "u" = some Xk ∧
      (({ demoLoader with
          X := [("u", [(10, 1), (30, 3)]), ("C", [(20, 2), (30, 3)])],
          sol := [("u", [5, 7]), ("C", [9, 11])] } : ISSMmdData ℚ),
        (1 : Nat)).1.sol.lookup "u" = some solk ∧
      Xk.length = min 2 iice.length ∧
      solk.length = min 2 iice.length ∧
      idx.Nodup ∧ (∀ j ∈ idx, j < iice.length) ∧
      Xk = idx.map (fun j =>
        (demoLoader.X_dict_x.getD (iice.getD j 0) 0,
         demoLoader.X_dict_y.getD (iice.getD j 0) 0)) ∧
      solk = idx.map (fun j => ([5, 6, 7] : List ℚ).getD (iice.getD j 0) 0) :=
  C1_random_sample demoLoader rangeChoice 0 [("u", some 2), ("C", none)]
    "u" [5, 6, 7] 2
    ({ demoLoader with
        X := [("u", [(10, 1), (30, 3)]), ("C", [(20, 2), (30, 3)])],
        sol := [("u", [5, 7]), ("C", [9, 11])] }, 1)
    rangeChoice_valid (by decide) (by decide) (by decide) rfl

theorem prepare_state_invariant (d : ISSMmdData V)
    (X' : List (String × List (V × V))) (sol' : List (String × List V))
    (choice2 : Nat → Nat → Nat → List Nat) (t2 : Nat)
    (dsa2 : Option (List (String × Option Nat))) :
    ISSMmdData.prepare_training_data
      { parameters := d.parameters, X_dict_x := d.X_dict_x,
        X_dict_y := d.X_dict_y, data_dict := d.data_dict,
        mask_dict := d.mask_dict, X := X', sol := sol' } choice2 t2 dsa2
      = d.prepare_training_data choice2 t2 dsa2 := rfl

/-- C4: after `Data.prepare_training_data` on a freshly constructed
aggregate, the entry `X[k]` (and `sol[k]`) is the concatenation, in
configured-source iteration order, of the per-loader entries for `k`; a
loader whose `X` lacks `k` contributes nothing and causes no error, and
the aggregate row count is the sum of the per-loader row counts. -/
theorem C4_aggregate_merge (A : Data V)
    (choice : Nat → Nat → Nat → List Nat) (t0 : Nat) (r : Data V × Nat)
    (k : String)
    (hX0 : A.X = []) (hsol0 : A.sol = [])
    (hnd : ∀ p ∈ A.data, (keys p.2.data_dict).Nodup)
    (hr : A.prepare_training_data choice t0 = some r) :
    ((r.1.X.lookup k).isSome ↔ ∃ p ∈ r.1.data, (p.2.X.lookup k).isSome) ∧
    (r.1.X.lookup k).getD []
        = (r.1.data.map fun p => (p.2.X.lookup k).getD []).flatten ∧
    ((r.1.X.lookup k).getD []).length
        = (r.1.data.map fun p => ((p.2.X.lookup k).getD []).length).sum ∧
    (r.1.sol.lookup k).getD []
        = (r.1.data.map fun p => (p.2.sol.lookup k).getD []).flatten ∧
    ((r.1.sol.lookup k).getD []).length
        = (r.1.data.map fun p => ((p.2.sol.lookup k).getD []).length).sum := by
  unfold Data.prepare_training_data at hr
  cases hq : dataPrepLoop choice A.data t0 A.X A.sol with
  | none => rw [hq] at hr; simp at hr
  | some q =>
    rw [hq] at hr
    simp only [Option.map_some, Option.map_some', Option.some.injEq] at hr
    have hl := dataPrepLoop_lookup choice A.data t0 A.X A.sol q k hnd hq
    rw [hX0] at hl
    rw [hsol0] at hl
    rw [← hr]
    have hX : ((({ A with data := q.1, X := q.2.1, sol := q.2.2.1 } : Data V),
        q.2.2.2) : Data V × Nat).1.X.lookup k
        = vstackFold none (q.1.map fun p => p.2.X.lookup k) := hl.1
    have hsol : ((({ A with data := q.1, X := q.2.1, sol := q.2.2.1 } : Data V),
        q.2.2.2) : Data V × Nat).1.sol.lookup k
        = vstackFold none (q.1.map fun p => p.2.sol.lookup k) := hl.2
    have hflatX : (vstackFold none (q.1.map fun p => p.2.X.lookup k)).getD []
        = (q.1.map fun p => (p.2.X.lookup k).getD []).flatten := by
      rw [vstackFold_getD, List.map_map]
      rfl
    have hflatsol : (vstackFold none (q.1.map fun p => p.2.sol.lookup k)).getD []
        = (q.1.map fun p => (p.2.sol.lookup k).getD []).flatten := by
      rw [vstackFold_getD, List.map_map]
      rfl
    refine ⟨?_, ?_, ?_, ?_, ?_⟩
    · rw [hX, vstackFold_isSome, Option.isSome_none, Bool.false_or,
        List.any_eq_true]
      constructor
      · rintro ⟨c, hc, hcs⟩
        obtain ⟨p, hp, rfl⟩ := List.mem_map.mp hc
        exact ⟨p, hp, hcs⟩
      · rintro ⟨p, hp, hps⟩
        exact ⟨p.2.X.lookup k, List.mem_map.mpr ⟨p, hp, rfl⟩, hps⟩
    · rw [hX, hflatX]
    · rw [hX, hflatX, List.length_flatten, List.map_map]
      rfl
    · rw [hsol, hflatsol]
    · rw [hsol, hflatsol, List.length_flatten, List.map_map]
      rfl

/-- C4 witness: two sources both producing `u` (2 and 1 sampled rows)
merge into a 3-row aggregate entry, in source order; the second source
lacks `C` and contributes nothing to it. -/
theorem C4_witness :
    ((demoData2Prepared.1.X.lookup "u").isSome
        ↔ ∃ p ∈ demoData2Prepared.1.data, (p.2.X.lookup "u").isSome) ∧
    (demoData2Prepared.1.X.lookup "u").getD []
        = (demoData2Prepared.1.data.map
            fun p => (p.2.X.lookup "u").getD []).flatten ∧
    ((demoData2Prepared.1.X.lookup "u").getD []).length
        = (demoData2Prepared.1.data.map
            fun p => ((p.2.X.lookup "u").getD []).length).sum ∧
    (demoData2Prepared.1.sol.lookup "u").getD []
        = (demoData2Prepared.1.data.map
            fun p => (p.2.sol.lookup "u").getD []).flatten ∧
    ((demoData2Prepared.1.sol.lookup "u").getD []).length
        = (demoData2Prepared.1.data.map
            fun p => ((p.2.sol.lookup "u").getD []).length).sum :=
  C4_aggregate_merge demoData2 rangeChoice 0 demoData2Prepared "u" rfl rfl
    (by decide) rfl

/-- C3 counterexample: on a one-source aggregate with the boundary field
`C`, a single `Data.prepare_training_data` gives 2 rows for `X["C"]`,
but re-invoking it on the result gives 4 rows — the sum of both calls,
not the single-call count, contradicting the claim for the aggregate
manager. -/
theorem C3_counterexample :
    ((demoData.prepare_training_data rangeChoice 0).bind fun r1 =>
        r1.1.prepare_training_data rangeChoice r1.2).map
      (fun r2 => (r2.1.X.lookup "C").map List.length) = some (some 4) ∧
    (demoData.prepare_training_data rangeChoice 0).map
      (fun r1 => (r1.1.X.lookup "C").map List.length) = some (some 2) :=
  ⟨rfl, rfl⟩

/-- C3 (amended): re-invoking `ISSMmdData.prepare_training_data` fully
replaces the loader-level `X` and `sol` (a second call on the updated
loader returns exactly what a call on the original loader returns); the
aggregate `Data.prepare_training_data`, however, does not replace: it
appends the newly produced per-loader rows onto the aggregate entries
already present, so after a second call `X[k]` holds the rows of both
calls. -/
theorem C3_loader_replaces_aggregate_accumulates :
    (∀ (d : ISSMmdData V) (choice : Nat → Nat → Nat → List Nat) (t0 : Nat)
        (dsa : Option (List (String × Option Nat))) (res : ISSMmdData V × Nat)
        (choice2 : Nat → Nat → Nat → List Nat) (t2 : Nat)
        (dsa2 : Option (List (String × Option Nat))),
      d.prepare_training_data choice t0 dsa = some res →
        res.1.prepare_training_data choice2 t2 dsa2
          = d.prepare_training_data choice2 t2 dsa2) ∧
    (∀ (A : Data V) (choice : Nat → Nat → Nat → List Nat) (t0 : Nat)
        (r : Data V × Nat) (k : String),
      (∀ p ∈ A.data, (keys p.2.data_dict).Nodup) →
      A.prepare_training_data choice t0 = some r →
        (r.1.X.lookup k).getD []
          = (A.X.lookup k).getD []
            ++ (r.1.data.map fun p => (p.2.X.lookup k).getD []).flatten) := by
  constructor
  · intro d choice t0 dsa res choice2 t2 dsa2 hres
    obtain ⟨iice, DBC, hice, hdbc⟩ := prepare_isSome_inv d choice t0 dsa res hres
    rw [prepare_training_data_eq d choice t0 dsa iice DBC hice hdbc] at hres
    injection hres with h
    rw [← h]
    exact prepare_state_invariant d _ _ choice2 t2 dsa2
  · intro A choice t0 r k hnd hr
    unfold Data.prepare_training_data at hr
    cases hq : dataPrepLoop choice A.data t0 A.X A.sol with
    | none => rw [hq] at hr; simp at hr
    | some q =>
      rw [hq] at hr
      simp only [Option.map_some, Option.map_some', Option.some.injEq] at hr
      have hl := dataPrepLoop_lookup choice A.data t0 A.X A.sol q k hnd hq
      rw [← hr]
      rw [show ((({ A with data := q.1, X := q.2.1, sol := q.2.2.1 } : Data V),
          q.2.2.2) : Data V × Nat).1.X = q.2.1 from rfl]
      rw [hl.1, vstackFold_getD, List.map_map]
      rfl

/-- C3 witness: the loader part at the demo loader (second call equals a
fresh call), and the aggregate part at the one-source demo manager. -/
theorem C3_witness :
    demoLoaderPrepared.1.prepare_training_data rangeChoice 7
        (some [("u", some 1)])
      = demoLoader.prepare_training_data rangeChoice 7 (some [("u", some 1)]) ∧
    (demoDataPrepared.1.X.lookup "C").getD []
      = (demoData.X.lookup "C").getD []
        ++ (demoDataPrepared.1.data.map
            fun p => (p.2.X.lookup "C").getD []).flatten :=
  ⟨C3_loader_replaces_aggregate_accumulates.1 demoLoader rangeChoice 0
      (some [("u", some 2), ("C", none)]) demoLoaderPrepared rangeChoice 7
      (some [("u", some 1)]) rfl,
    C3_loader_replaces_aggregate_accumulates.2 demoData rangeChoice 0
      demoDataPrepared "C" (by decide) (by rfl)⟩

theorem dataLoadLoop_error (yts : V) (sq : V → V)
    (loadmat : String → Except E (MatMd V))
    (pre post : List (String × ISSMmdData V)) (key : String)
    (dfail : ISSMmdData V) (e : E) :
    (∀ p ∈ pre, ∃ d', p.2.load_data yts sq loadmat = Except.ok d') →
    dfail.load_data yts sq loadmat = Except.error e →
      dataLoadLoop yts sq loadmat (pre ++ (key, dfail) :: post)
        = (pre.map (fun p => (p.1, loadedOf yts sq loadmat p.2))
            ++ (key, dfail) :: post, some e) := by
  induction pre with
  | nil =>
    intro _ hfail
    simp only [List.nil_append, List.map_nil, dataLoadLoop, hfail]
  | cons p rest ih =>
    intro hpre hfail
    obtain ⟨a, da⟩ := p
    obtain ⟨d', hd'⟩ := hpre (a, da) (List.mem_cons_self _ _)
    have hld : loadedOf yts sq loadmat da = d' := by
      simp only [loadedOf, hd']
    simp only [List.cons_append, dataLoadLoop, hd', List.map_cons, hld,
      List.append_eq]
    rw [ih (fun q hq => hpre q (List.mem_cons_of_mem _ hq)) hfail]

/-- C8: `Data.load_data` runs the owned loaders strictly in configured
order; when a loader's `load_data` raises, the error propagates unchanged
to the caller, the failing loader and every later loader keep their
previous state (they are not attempted), and the earlier successfully
loaded loaders keep their freshly populated state; the aggregate `X` and
`sol` are untouched. -/
theorem C8_load_error_propagation (A : Data V) (yts : V) (sq : V → V)
    (loadmat : String → Except E (MatMd V))
    (pre post : List (String × ISSMmdData V)) (key : String)
    (dfail : ISSMmdData V) (e : E)
    (hsplit : A.data = pre ++ (key, dfail) :: post)
    (hpre : ∀ p ∈ pre, ∃ d', p.2.load_data yts sq loadmat = Except.ok d')
    (hfail : dfail.load_data yts sq loadmat = Except.error e) :
    (A.load_data yts sq loadmat).2 = some e ∧
    (A.load_data yts sq loadmat).1.data
      = pre.map (fun p => (p.1, loadedOf yts sq loadmat p.2))
        ++ (key, dfail) :: post ∧
    (A.load_data yts sq loadmat).1.X = A.X ∧
    (A.load_data yts sq loadmat).1.sol = A.sol := by
  unfold Data.load_data
  rw [hsplit, dataLoadLoop_error yts sq loadmat pre post key dfail e hpre hfail]
  exact ⟨rfl, rfl, rfl, rfl⟩

/-- C8 witness: with a readable `f.mat` and a missing `g.mat`, loading
the two-source aggregate loads the first source, stops at the second,
and propagates its error unchanged. -/
theorem C8_witness :
    (demoDataLoad.load_data 1 id demoLoadmat).2 = some "boom" ∧
    (demoDataLoad.load_data 1 id demoLoadmat).1.data
      = ([("a", demoLoader)] : List (String × ISSMmdData ℚ)).map
          (fun p => (p.1, loadedOf 1 id demoLoadmat p.2))
        ++ ("b", demoLoader2) :: [] ∧
    (demoDataLoad.load_data 1 id demoLoadmat).1.X = demoDataLoad.X ∧
    (demoDataLoad.load_data 1 id demoLoadmat).1.sol = demoDataLoad.sol :=
  C8_load_error_propagation demoDataLoad 1 id demoLoadmat
    [("a", demoLoader)] [] "b" demoLoader2 "boom" rfl
    (by
      intro p hp
      rw [List.mem_singleton] at hp
      subst hp
      exact ⟨_, rfl⟩)
    rfl

/-- C9: after a successful `load_data`, the stored velocity components
are the file's observed components divided by the seconds-per-year
constant, the derived field `vel` is the elementwise square root of
`u² + v²`, and the remaining fields (`s`, `H`, `C`, `B`, the two masks,
and the `x`/`y` coordinates) are stored unmodified from the file. -/
theorem C9_load_velocity_conversion (d : ISSMmdData ℝ) (yts : ℝ)
    (loadmat : String → Except E (MatMd ℝ)) (md : MatMd ℝ)
    (hload : loadmat d.parameters.data_path = Except.ok md) :
    ∃ res, d.load_data yts Real.sqrt loadmat = Except.ok res ∧
      ∃ u v, res.data_dict.lookup "u" = some u ∧
        res.data_dict.lookup "v" = some v ∧
        u = md.vx_obs.map (fun a => a / yts) ∧
        v = md.vy_obs.map (fun a => a / yts) ∧
        res.data_dict.lookup "vel" = some
          (List.zipWith (fun a b => Real.sqrt (a ^ (2 : ℕ) + b ^ (2 : ℕ))) u v) ∧
        res.data_dict.lookup "s" = some md.surface ∧
        res.data_dict.lookup "H" = some md.thickness ∧
        res.data_dict.lookup "C" = some md.friction_C ∧
        res.data_dict.lookup "B" = some md.rheology_B ∧
        res.mask_dict.lookup "icemask" = some md.ice_levelset ∧
        res.mask_dict.lookup "DBC_mask" = some md.vertexonboundary ∧
        res.X_dict_x = md.mesh_x ∧ res.X_dict_y = md.mesh_y := by
  refine ⟨{ d with
      X_dict_x := md.mesh_x
      X_dict_y := md.mesh_y
      data_dict := setKey (setKey (setKey (setKey (setKey (setKey (setKey
        d.data_dict "u" (md.vx_obs.map fun a => a / yts))
        "v" (md.vy_obs.map fun a => a / yts)) "s" md.surface)
        "H" md.thickness) "C" md.friction_C) "B" md.rheology_B) "vel"
        (List.zipWith (fun a b => Real.sqrt (a ^ (2 : ℕ) + b ^ (2 : ℕ)))
          (md.vx_obs.map fun a => a / yts) (md.vy_obs.map fun a => a / yts))
      mask_dict := setKey (setKey d.mask_dict "icemask" md.ice_levelset)
        "DBC_mask" md.vertexonboundary }, ?_, ?_⟩
  · unfold ISSMmdData.load_data
    rw [hload]
    rfl
  · refine ⟨md.vx_obs.map fun a => a / yts, md.vy_obs.map fun a => a / yts,
      ?_, ?_, rfl, rfl, ?_, ?_, ?_, ?_, ?_, ?_, ?_, rfl, rfl⟩
    · simp [lookup_setKey_self, lookup_setKey_ne]
    · simp [lookup_setKey_self, lookup_setKey_ne]
    · simp [lookup_setKey_self, lookup_setKey_ne]
    · simp [lookup_setKey_self, lookup_setKey_ne]
    · simp [lookup_setKey_self, lookup_setKey_ne]
    · simp [lookup_setKey_self, lookup_setKey_ne]
    · simp [lookup_setKey_self, lookup_setKey_ne]
    · simp [lookup_setKey_self, lookup_setKey_ne]
    · simp [lookup_setKey_self, lookup_setKey_ne]

/-- C9 witness: loading a one-vertex file with `vx_obs = 3`,
`vy_obs = 4` and `yts = 1` produces the converted components and the
derived `vel`. -/
theorem C9_witness :
    ∃ res, ({ parameters := demoParams } : ISSMmdData ℝ).load_data 1 Real.sqrt
        ((fun _ => Except.ok (⟨[10], [1], [3], [4], [2], [5], [9], [8],
          [-1], [1]⟩ : MatMd ℝ)) : String → Except String (MatMd ℝ))
        = Except.ok res ∧
      ∃ u v, res.data_dict.lookup "u" = some u ∧
        res.data_dict.lookup "v" = some v ∧
        u = ([3] : List ℝ).map (fun a => a / 1) ∧
        v = ([4] : List ℝ).map (fun a => a / 1) ∧
        res.data_dict.lookup "vel" = some
          (List.zipWith (fun a b => Real.sqrt (a ^ (2 : ℕ) + b ^ (2 : ℕ))) u v) ∧
        res.data_dict.lookup "s" = some [2] ∧
        res.data_dict.lookup "H" = some [5] ∧
        res.data_dict.lookup "C" = some [9] ∧
        res.data_dict.lookup "B" = some [8] ∧
        res.mask_dict.lookup "icemask" = some [-1] ∧
        res.mask_dict.lookup "DBC_mask" = some [1] ∧
        res.X_dict_x = [10] ∧ res.X_dict_y = [1] :=
  C9_load_velocity_conversion (E := String) { parameters := demoParams } 1
    (fun _ => Except.ok ⟨[10], [1], [3], [4], [2], [5], [9], [8], [-1], [1]⟩)
    ⟨[10], [1], [3], [4], [2], [5], [9], [8], [-1], [1]⟩ rfl

end PINNICLE
